import Mathlib

/-!
Verification of the bed-management core (bed-mgmt-api).

Shallow embedding of the bed status lifecycle subsystem:

* the data model (`models/Lit` / `models/HistoriqueStatut` / `models/Task` /
  `models/Utilisateur`), with Mongo documents rendered as Lean structures,
  nullable fields as `Option`, timestamps as `Nat` (epoch milliseconds);
* the bed status transition handler (`PATCH /lits/bed/:bedId/status`, the
  current revision of `routes/lits.js`);
* the history ledger (`HistoriqueStatut.createHistory`, `getBedHistory`) with
  its counter-collection id allocation;
* the filtered history listing (`GET /lits/history`) with its role-based
  query construction;
* the capacity computation of the services listing routes
  (`GET /services`, sector services route);
* the task listing/patching routes (`routes/tasks.js`).

The database is a record of the collections touched by these operations; each
HTTP handler becomes a pure function from (database, request, caller) to
(database, outcome).
-/


/-- A bed document (`litSchema`, `models/Lit.js`).  Nullable `Date` fields are
`Option Nat` (epoch millis); `SUB_ID_STATUT` is a nullable status id. -/
structure Lit where
  idLit : String
  idService : String
  idStatut : Int
  subIdStatut : Option Int
  majStatut : Option Nat
  cleaningDate : Option Nat
  maintenanceDate : Option Nat
  reservedDate : Option Nat
  actif : Bool
  gender : String
  isEmergency : Bool
  deriving DecidableEq, Repr

/-- A history entry (`historiqueStatutSchema`, `models/HistoriqueStatut.js`). -/
structure HistoriqueStatut where
  idHist : Nat
  idLit : String
  idService : String
  idStatut : Int
  dateHeure : Nat
  auteur : String
  statutPrecedent : Int
  deriving DecidableEq, Repr

/-- A task document (`taskSchema`, `models/Task.js`; named `TaskItem` here since `Task` exists in core Lean); `taskId` stands for the
Mongo `_id` used by `Task.findById`. -/
structure TaskItem where
  taskId : Nat
  bedId : String
  serviceName : String
  taskType : Int
  creationDate : Nat
  taskCategory : Option Int
  taskCompletionDateTime : Option Nat
  bedFor : Option String
  gender : Option String
  isUrgent : Bool
  isDone : Bool
  deriving DecidableEq, Repr

/-- The authenticated caller (`req.user`): the JWT issued at login carries
`NOM`, `ROLE` (also as lowercase `role`, same value) and `SERVICES_AUTORISES`. -/
structure Utilisateur where
  nom : String
  role : String
  servicesAutorises : List String
  deriving DecidableEq, Repr

/-- The collections the verified operations touch.  `histCounter` is the
`seq` value of the `counters` document `_id = historique_statut_id`. -/
structure DB where
  lits : List Lit
  historique : List HistoriqueStatut
  tasks : List TaskItem
  histCounter : Nat
  deriving DecidableEq, Repr

/-- Payload accepted by `PATCH /lits/bed/:bedId/status` (current revision):
`{ ID_STATUT, SUB_ID_STATUT, MAJ_STATUT, CLEANING_TIME, MAINTENANCE_TIME }`. -/
structure StatusUpdateBody where
  idStatut : Int
  subIdStatut : Option Int
  majStatut : Option Nat
  cleaningTime : Option Nat
  maintenanceTime : Option Nat
  deriving DecidableEq, Repr

/-- Data argument of `HistoriqueStatut.createHistory`. -/
structure HistCreateData where
  idLit : String
  idService : String
  idStatut : Int
  auteur : String
  statutPrecedent : Int
  deriving DecidableEq, Repr

/-- Embeds `historiqueStatutSchema.statics.createHistory`: atomically increment-and-get
the counter document's `seq` (`findOneAndUpdate` with `$inc` and
`returnDocument: after`), then save a record carrying the fresh id;
`DATE_HEURE` defaults to now. -/
def createHistory (db : DB) (data : HistCreateData) (now : Nat) :
    DB × HistoriqueStatut :=
  let seq := db.histCounter + 1
  let historyRecord : HistoriqueStatut :=
    { idHist := seq
      idLit := data.idLit
      idService := data.idService
      idStatut := data.idStatut
      dateHeure := now
      auteur := data.auteur
      statutPrecedent := data.statutPrecedent }
  ({ db with histCounter := seq, historique := db.historique ++ [historyRecord] },
   historyRecord)

/-- Result of the bed status transition handler. -/
inductive Outcome where
  /-- Response 404, `Bed not found`. -/
  | notFound
  /-- Response 400, `Cannot update status of inactive bed`. -/
  | inactiveBed
  /-- Response 200, the updated bed re-read from the store. -/
  | ok (bed : Lit)
  deriving DecidableEq, Repr

/-- The error message attached to each failing outcome of the transition
handler, as sent in the JSON body. -/
def Outcome.errorMessage : Outcome → Option String
  | .notFound => some "Bed not found"
  | .inactiveBed => some "Cannot update status of inactive bed"
  | .ok _ => none

/-- Handler of `PATCH /lits/bed/:bedId/status` (current revision of `routes/lits.js`):
look the bed up, reject if missing or `!lit.ACTIF`; otherwise assign
`ID_STATUT` and `MAJ_STATUT` from the body, set `SUB_ID_STATUT` and
`CLEANING_DATE` when the target is 3 (clearing both otherwise), set
`MAINTENANCE_DATE` when the target is 4 (clearing it otherwise), save (the
`pre("save")` hook restamps `MAJ_STATUT` when `ID_STATUT` changed), then
append a history record through `createHistory` with the caller's `NOM`.
The handler never assigns `ACTIF`, `RESERVED_DATE` and never touches the
`tasks` collection. -/
def bedStatusTransition (db : DB) (bedId : String) (body : StatusUpdateBody)
    (userNom : String) (now : Nat) : DB × Outcome :=
  match db.lits.find? (fun l => l.idLit == bedId) with
  | none => (db, .notFound)
  | some lit =>
    if lit.actif = false then
      (db, .inactiveBed)
    else
      let previousStatus := lit.idStatut
      let lit1 := { lit with idStatut := body.idStatut, majStatut := body.majStatut }
      let lit2 :=
        if body.idStatut == 3 then
          { lit1 with subIdStatut := body.subIdStatut, cleaningDate := body.cleaningTime }
        else
          { lit1 with subIdStatut := none, cleaningDate := none }
      let lit3 :=
        if body.idStatut == 4 then
          { lit2 with maintenanceDate := body.maintenanceTime }
        else
          { lit2 with maintenanceDate := none }
      let lit4 :=
        if body.idStatut == previousStatus then lit3
        else { lit3 with majStatut := some now }
      let db1 := { db with
        lits := db.lits.map (fun l => if l.idLit == bedId then lit4 else l) }
      let res := createHistory db1
        { idLit := lit4.idLit
          idService := lit4.idService
          idStatut := body.idStatut
          auteur := userNom
          statutPrecedent := previousStatus } now
      (res.1, .ok lit4)

/-! ## Sorting

Mongo `.sort({KEY: -1})` / `{KEY: 1}` stages are embedded as a stable
insertion sort on the collection's list; entries whose keys tie keep the
store's order (the source supplies no tie-breaking key). -/

/-- Insert `x` into `l`, placing it before the first element it is
`le`-related to. -/
def insertSorted (le : α → α → Bool) (x : α) : List α → List α
  | [] => [x]
  | y :: l => if le x y then x :: y :: l else y :: insertSorted le x l

/-- Stable insertion sort by the boolean relation `le`. -/
def sortStable (le : α → α → Bool) : List α → List α
  | [] => []
  | x :: l => insertSorted le x (sortStable le l)

/-- Newest-first comparison used by every history listing:
`.sort({ DATE_HEURE: -1 })`. -/
def dateHeureDesc (a b : HistoriqueStatut) : Bool :=
  decide (b.dateHeure ≤ a.dateHeure)

/-- Embeds `historiqueStatutSchema.statics.getBedHistory`: the bed's entries, sorted
`{ DATE_HEURE: -1 }`, limited (the route calls it with the default 50). -/
def getBedHistory (db : DB) (bedId : String) (limit : Nat) :
    List HistoriqueStatut :=
  (sortStable dateHeureDesc (db.historique.filter (fun h => h.idLit == bedId))).take limit

/-- Handler of `GET /lits` (current revision): `query = {}`, `Lit.find(query).sort({ID_LIT: 1})` —
no role- or service-based restriction is applied to the query. -/
def listAllBeds (db : DB) (_user : Utilisateur) : List Lit :=
  sortStable (fun a b => decide (a.idLit ≤ b.idLit)) db.lits

/-! ## `GET /lits/history`: filtered history listing with role filters -/

/-- Query parameters of `GET /lits/history`. -/
structure HistoryQueryReq where
  bedId : Option String
  serviceId : Option String
  startDate : Option Nat
  endDate : Option Nat
  status : Option Int
  author : Option String
  page : Nat
  limit : Nat
  deriving DecidableEq, Repr

/-- Embeds `start.setHours(0, 0, 0, 0)`: truncate an epoch-millisecond timestamp to
the start of its day. -/
def dayStart (d : Nat) : Nat := d - d % 86400000

/-- Embeds `end.setHours(23, 59, 59, 999)`: last millisecond of the timestamp's day. -/
def dayEnd (d : Nat) : Nat := dayStart d + 86399999

/-- The `ID_SERVICE` key of the Mongo query object: absent, an exact string
(caller's `serviceId` filter), or a `$in` list (role override). -/
inductive ServiceCond where
  | noCond
  | eqService (s : String)
  | inServices (ss : List String)
  deriving DecidableEq, Repr

/-- The query object the history route builds before hitting Mongo: one key
per caller-supplied filter, plus the role-added `$or` on
`ID_STATUT`/`STATUT_PRECEDENT`. -/
structure HistQuery where
  idLit : Option String
  idService : ServiceCond
  idStatut : Option Int
  auteur : Option String
  dateGte : Option Nat
  dateLte : Option Nat
  orStatusOrPrev : Option Int
  deriving DecidableEq, Repr

/-- The query keys contributed by the caller's explicit filters alone
(lines building `query` from `bedId`, `serviceId`, `status`, `author`,
`startDate`, `endDate`). -/
def baseHistQuery (req : HistoryQueryReq) : HistQuery :=
  { idLit := req.bedId
    idService := match req.serviceId with
      | some s => .eqService s
      | none => .noCond
    idStatut := req.status
    auteur := req.author
    dateGte := req.startDate.map dayStart
    dateLte := req.endDate.map dayEnd
    orStatusOrPrev := none }

/-- Role-based access control block of the history route: `User`/`Viewer`
callers get `query.ID_SERVICE = { $in: SERVICES_AUTORISES }` when that list is
non-empty and an immediate empty response otherwise (`none` here); cleaning
roles get `query.$or = [{ID_STATUT: 3}, {STATUT_PRECEDENT: 3}]`; technical
roles the same with 4; any other role leaves the query unchanged. -/
def buildHistQuery (req : HistoryQueryReq) (user : Utilisateur) :
    Option HistQuery :=
  let query := baseHistQuery req
  if user.role == "User" || user.role == "Viewer" then
    if user.servicesAutorises.length > 0 then
      some { query with idService := .inServices user.servicesAutorises }
    else
      none
  else if user.role == "Agent d\x27entretien" || user.role == "Responsabled\x27entretien" then
    some { query with orStatusOrPrev := some 3 }
  else if user.role == "Agent technique" || user.role == "Responsable technique" then
    some { query with orStatusOrPrev := some 4 }
  else
    some query

/-- Does a history document match the `ID_SERVICE` key of the query? -/
def ServiceCond.matches : ServiceCond → String → Bool
  | .noCond, _ => true
  | .eqService s, x => x == s
  | .inServices ss, x => ss.contains x

/-- Mongo matching semantics of the built query object: every key must hold
(top-level keys of a query document are conjoined, `$or` holds when one of its
branches does). -/
def matchesHistQuery (q : HistQuery) (h : HistoriqueStatut) : Bool :=
  (match q.idLit with | none => true | some b => h.idLit == b) &&
  q.idService.matches h.idService &&
  (match q.idStatut with | none => true | some s => h.idStatut == s) &&
  (match q.auteur with | none => true | some a => h.auteur == a) &&
  (match q.dateGte with | none => true | some d => decide (d ≤ h.dateHeure)) &&
  (match q.dateLte with | none => true | some d => decide (h.dateHeure ≤ d)) &&
  (match q.orStatusOrPrev with
    | none => true
    | some k => h.idStatut == k || h.statutPrecedent == k)

/-- Handler of `GET /lits/history`: build the query (role filters included), match it
against the ledger, sort `{ DATE_HEURE: -1 }`, then paginate with
`$skip`/`$limit`; a `User`/`Viewer` with no authorized services short-circuits
to an empty page. -/
def historyRoute (db : DB) (user : Utilisateur) (req : HistoryQueryReq) :
    List HistoriqueStatut :=
  match buildHistQuery req user with
  | none => []
  | some q =>
    ((sortStable dateHeureDesc (db.historique.filter (matchesHistQuery q))).drop
        ((req.page - 1) * req.limit)).take req.limit

/-! ## Capacity computation (services listing routes)

Both services routes compute, for each service returned, fresh counts from
`Lit.find({ ID_SERVICE })`:
`CAPA_ARCHI = beds.filter(b => b.ACTIF === true).length` and
`CAPA_REELLE = beds.filter(b => b.ID_STATUT === 1 && b.ACTIF === true).length`.
The `Service` schema stores no capacity fields. -/

/-- Embeds `Lit.find({ ID_SERVICE: serviceId })`. -/
def serviceBeds (db : DB) (serviceId : String) : List Lit :=
  db.lits.filter (fun b => b.idService == serviceId)

/-- Value of `CAPA_ARCHI` as the services listing routes compute it. -/
def capaArchi (db : DB) (serviceId : String) : Nat :=
  ((serviceBeds db serviceId).filter (fun b => b.actif == true)).length

/-- Value of `CAPA_REELLE` as the services listing routes compute it. -/
def capaReelle (db : DB) (serviceId : String) : Nat :=
  ((serviceBeds db serviceId).filter
    (fun b => b.idStatut == 1 && b.actif == true)).length

/-- The `CAPA_ARCHI` virtual of `models/Service.js`:
`Lit.countDocuments({ ID_SERVICE })`. -/
def virtualCapaArchi (db : DB) (serviceId : String) : Nat :=
  (serviceBeds db serviceId).length

/-- The `CAPA_REELLE` virtual of `models/Service.js`:
`Lit.countDocuments({ ID_SERVICE, ID_STATUT: 1 })`. -/
def virtualCapaReelle (db : DB) (serviceId : String) : Nat :=
  ((serviceBeds db serviceId).filter (fun b => b.idStatut == 1)).length

/-! ## Task routes (`routes/tasks.js`) -/

/-- Payload of `PATCH /tasks/:id`; each field is applied only when present. -/
structure TaskPatchBody where
  isDone : Option Bool
  isUrgent : Option Bool
  bedFor : Option String
  taskCompletionDateTime : Option Nat
  taskCategory : Option Int
  deriving DecidableEq, Repr

/-- The `updateData` object of `PATCH /tasks/:id` applied to one task:
only the provided fields change. -/
def applyTaskPatch (t : TaskItem) (p : TaskPatchBody) : TaskItem :=
  { t with
    isDone := p.isDone.getD t.isDone
    isUrgent := p.isUrgent.getD t.isUrgent
    bedFor := match p.bedFor with | some v => some v | none => t.bedFor
    taskCompletionDateTime := match p.taskCompletionDateTime with
      | some v => some v
      | none => t.taskCompletionDateTime
    taskCategory := match p.taskCategory with
      | some v => some v
      | none => t.taskCategory }

/-- Handler of `PATCH /tasks/:id`: `Task.findById`, 404 (`false`) when absent, else
`Task.findByIdAndUpdate(id, updateData)`.  Only the `tasks` collection is
touched. -/
def patchTask (db : DB) (taskId : Nat) (p : TaskPatchBody) : DB × Bool :=
  match db.tasks.find? (fun t => t.taskId == taskId) with
  | none => (db, false)
  | some _ =>
    ({ db with
        tasks := db.tasks.map
          (fun t => if t.taskId == taskId then applyTaskPatch t p else t) },
     true)

/-- Modelled from the spec: no file under `src/` creates task documents (the
`Task` model and its list/patch routes only read and update them), so the
task-creating side effect of the status transition is taken from §4.1 step 10
of the spec: "If `targetStatusId` is To-Clean or Maintenance, create a
TaskItem (kind matches), seeded with urgency=false, done=false"; any other
target creates nothing.  `nextTaskId` stands for the fresh Mongo `_id`. -/
def transitionTaskCreation (tasks : List TaskItem) (nextTaskId : Nat)
    (bed : Lit) (targetStatusId : Int) (subStatusId : Option Int) (now : Nat) :
    List TaskItem :=
  if targetStatusId == 3 || targetStatusId == 4 then
    tasks ++
      [{ taskId := nextTaskId
         bedId := bed.idLit
         serviceName := bed.idService
         taskType := targetStatusId
         creationDate := now
         taskCategory := subStatusId
         taskCompletionDateTime := none
         bedFor := none
         gender := some bed.gender
         isUrgent := false
         isDone := false }]
  else
    tasks

/-! ## Concrete stores used by counterexamples and witnesses -/

/-- A free, active bed as `POST /lits` provisions it (`ID_STATUT: 1`,
`ACTIF` defaulting to `true`). -/
def exFreeBed : Lit :=
  ⟨"MED-01-03", "MED-01", 1, none, some 5, none, none, none, true, "", false⟩

/-- Store holding just `exFreeBed`. -/
def exDbC1 : DB := ⟨[exFreeBed], [], [], 0⟩

/-- Transition request to Occupied (status 2). -/
def exBodyOccupied : StatusUpdateBody := ⟨2, none, none, none, none⟩

/-- State of `exFreeBed` after the transition to Occupied at time 100. -/
def exBedAfterOccupied : Lit :=
  ⟨"MED-01-03", "MED-01", 2, none, some 100, none, none, none, true, "", false⟩

/-- History record appended by that transition. -/
def exHistAfterOccupied : HistoriqueStatut := ⟨1, "MED-01-03", "MED-01", 2, 100, "u1", 1⟩

/-- The store after that transition. -/
def exDbAfterOccupied : DB := ⟨[exBedAfterOccupied], [exHistAfterOccupied], [], 1⟩

/-- An inactive bed (e.g. switched off through `PUT /lits/:id`). -/
def exInactiveBed : Lit :=
  ⟨"CHI-01", "CHI", 5, none, some 10, none, none, none, false, "", false⟩

/-- Store holding just `exInactiveBed`. -/
def exDbC10 : DB := ⟨[exInactiveBed], [], [], 0⟩

/-- Transition request to Free (status 1). -/
def exBodyFree : StatusUpdateBody := ⟨1, none, none, none, none⟩

/-- Transition request to To-Clean (status 3) with deep-cleaning sub-status 8
and a scheduled cleaning time. -/
def exBodyClean : StatusUpdateBody := ⟨3, some 8, none, some 900, none⟩

/-- State of `exFreeBed` after the transition to To-Clean at time 100. -/
def exBedAfterClean : Lit :=
  ⟨"MED-01-03", "MED-01", 3, some 8, some 100, some 900, none, none, true, "", false⟩

/-- An active bed carrying a reservation timestamp (settable through
`PUT /lits/:id`, whose `updateData` spreads the request body). -/
def exReservedBed : Lit :=
  ⟨"SRV-01", "SRV", 6, none, some 5, none, none, some 50, true, "", false⟩

/-- Store holding just `exReservedBed`. -/
def exDbC2 : DB := ⟨[exReservedBed], [], [], 0⟩

/-- State of `exReservedBed` after a transition to Free (status 1) at time 100:
`RESERVED_DATE` is still 50. -/
def exBedAfterFree : Lit :=
  ⟨"SRV-01", "SRV", 1, none, some 100, none, none, some 50, true, "", false⟩

/-- History record appended by that transition. -/
def exHistAfterFree : HistoriqueStatut := ⟨1, "SRV-01", "SRV", 1, 100, "u1", 6⟩

/-- The store after that transition. -/
def exDbAfterFree : DB := ⟨[exBedAfterFree], [exHistAfterFree], [], 1⟩

/-- Modelled from the spec: the full transition operation as §4.1 describes
it — the handler present in `src/` (`bedStatusTransition`) followed by the
task-creation step (step 10) that no file under `src/` implements
(`transitionTaskCreation`).  Error outcomes create nothing. -/
def bedStatusTransitionWithTasks (db : DB) (bedId : String)
    (body : StatusUpdateBody) (userNom : String) (nextTaskId now : Nat) :
    DB × Outcome :=
  match bedStatusTransition db bedId body userNom now with
  | (db', Outcome.ok bed) =>
    ({ db' with
        tasks := transitionTaskCreation db'.tasks nextTaskId bed body.idStatut
          body.subIdStatut now },
     Outcome.ok bed)
  | r => r

/-! ## History id allocation -/

/-- Ledger/counter invariant: every stored id is dominated by the counter,
and ids are strictly increasing in append order (hence pairwise distinct). -/
def histIdInv (db : DB) : Prop :=
  (∀ h ∈ db.historique, h.idHist ≤ db.histCounter) ∧
  db.historique.Pairwise (fun a b => a.idHist < b.idHist)

instance : DecidablePred histIdInv := fun db => by
  unfold histIdInv
  infer_instance

/-- A sequence of `createHistory` appends (each with its payload and its
timestamp), applied in order. -/
def appendHistories (db : DB) (reqs : List (HistCreateData × Nat)) : DB :=
  reqs.foldl (fun d r => (createHistory d r.1 r.2).1) db

/-- Sample payload for the C5 witness. -/
def exHistData : HistCreateData := ⟨"MED-01-03", "MED-01", 2, "u1", 1⟩

/-- An inactive Free bed: counted by the `Service` model's virtuals but not
by the services listing routes. -/
def exInactiveFreeBed : Lit :=
  ⟨"S-01", "S", 1, none, some 0, none, none, none, false, "", false⟩

/-- Store holding just `exInactiveFreeBed`. -/
def exDbC4 : DB := ⟨[exInactiveFreeBed], [], [], 0⟩

/-- History entries for the C6/C7 witnesses: a cleaning entry in service A
and an occupied entry in service B. -/
def exHistClean : HistoriqueStatut := ⟨1, "A-01", "A", 3, 200, "u2", 2⟩

/-- Second history entry (service B, no To-Clean involvement). -/
def exHistOccupied : HistoriqueStatut := ⟨2, "B-01", "B", 2, 300, "u3", 1⟩

/-- History store with the two entries above. -/
def exDbHist : DB := ⟨[], [exHistClean, exHistOccupied], [], 2⟩

/-- A `User`-role caller authorized on service A only. -/
def exUserA : Utilisateur := ⟨"u", "User", ["A"]⟩

/-- The unfiltered history request (first page, limit 10). -/
def exReqAll : HistoryQueryReq := ⟨none, none, none, none, none, none, 1, 10⟩

/-- A caller-role user with an empty authorized set. -/
def exUserNone : Utilisateur := ⟨"u", "Viewer", []⟩

/-- A bed of service B, visible to nobody service-scoped. -/
def exBedB : Lit := ⟨"B-01", "B", 1, none, some 0, none, none, none, true, "", false⟩

/-- Bed store holding just `exBedB`. -/
def exDbBeds : DB := ⟨[exBedB], [], [], 0⟩

/-- A cleaning-staff caller. -/
def exUserCleaning : Utilisateur := ⟨"c", "Agent d\x27entretien", []⟩

/-! ## History listing order -/

/-- Two ledger entries with the same timestamp, appended in id order. -/
def exHistTie1 : HistoriqueStatut := ⟨1, "B-01", "B", 2, 500, "u", 1⟩

/-- The second, later-appended entry with the same timestamp. -/
def exHistTie2 : HistoriqueStatut := ⟨2, "B-01", "B", 3, 500, "u", 2⟩

/-- Ledger holding the two tied entries. -/
def exDbTie : DB := ⟨[], [exHistTie1, exHistTie2], [], 2⟩

/-! ## Theorems -/

theorem mem_insertSorted {le : α → α → Bool} {x a : α} {l : List α} :
    a ∈ insertSorted le x l ↔ a = x ∨ a ∈ l := by
  induction l with
  | nil => simp [insertSorted]
  | cons y t ih =>
    by_cases h : le x y
    · simp [insertSorted, h]
    · simp [insertSorted, h, ih]
      tauto

theorem mem_sortStable {le : α → α → Bool} {l : List α} {a : α} :
    a ∈ sortStable le l ↔ a ∈ l := by
  induction l with
  | nil => simp [sortStable]
  | cons x t ih => simp [sortStable, mem_insertSorted, ih]

theorem pairwise_insertSorted {le : α → α → Bool}
    (htot : ∀ a b, le a b = true ∨ le b a = true)
    (htrans : ∀ a b c, le a b = true → le b c = true → le a c = true)
    {x : α} {l : List α} (hl : l.Pairwise (fun a b => le a b = true)) :
    (insertSorted le x l).Pairwise (fun a b => le a b = true) := by
  induction l with
  | nil => simp [insertSorted]
  | cons y t ih =>
    rcases List.pairwise_cons.mp hl with ⟨hy, ht⟩
    by_cases h : le x y = true
    · simp only [insertSorted, h, if_true]
      refine List.pairwise_cons.mpr ⟨?_, hl⟩
      intro z hz
      rcases List.mem_cons.mp hz with hz | hz
      · exact hz ▸ h
      · exact htrans x y z h (hy z hz)
    · have hxy : le y x = true := (htot x y).resolve_left h
      have h' : le x y = false := Bool.eq_false_iff.mpr h
      simp only [insertSorted, h', Bool.false_eq_true, if_false]
      refine List.pairwise_cons.mpr ⟨?_, ih ht⟩
      intro z hz
      rcases mem_insertSorted.mp hz with hz | hz
      · exact hz ▸ hxy
      · exact hy z hz

theorem pairwise_sortStable {le : α → α → Bool}
    (htot : ∀ a b, le a b = true ∨ le b a = true)
    (htrans : ∀ a b c, le a b = true → le b c = true → le a c = true)
    (l : List α) :
    (sortStable le l).Pairwise (fun a b => le a b = true) := by
  induction l with
  | nil => simp [sortStable]
  | cons x t ih => exact pairwise_insertSorted htot htrans ih

/-! ## Structural description of a successful transition -/

/-- A successful `PATCH /lits/bed/:bedId/status` call, described field by
field: the returned bed, the saved bed, the appended history record, and the
untouched collections. -/
theorem bedStatusTransition_ok_spec (db : DB) (bedId userNom : String)
    (body : StatusUpdateBody) (now : Nat) (lit : Lit)
    (hfind : db.lits.find? (fun l => l.idLit == bedId) = some lit)
    (hactive : lit.actif = true) :
    ∃ bed db',
      bedStatusTransition db bedId body userNom now = (db', Outcome.ok bed) ∧
      bed.idStatut = body.idStatut ∧
      bed.actif = lit.actif ∧
      bed.reservedDate = lit.reservedDate ∧
      bed.cleaningDate = (if body.idStatut = 3 then body.cleaningTime else none) ∧
      bed.subIdStatut = (if body.idStatut = 3 then body.subIdStatut else none) ∧
      bed.maintenanceDate = (if body.idStatut = 4 then body.maintenanceTime else none) ∧
      bed.idLit = lit.idLit ∧ bed.idService = lit.idService ∧
      bed.gender = lit.gender ∧ bed.isEmergency = lit.isEmergency ∧
      db'.tasks = db.tasks ∧
      db'.histCounter = db.histCounter + 1 ∧
      db'.historique = db.historique ++
        [{ idHist := db.histCounter + 1
           idLit := bed.idLit
           idService := bed.idService
           idStatut := body.idStatut
           dateHeure := now
           auteur := userNom
           statutPrecedent := lit.idStatut }] ∧
      db'.lits = db.lits.map (fun l => if l.idLit == bedId then bed else l) := by
  by_cases h3 : body.idStatut = 3 <;> by_cases h4 : body.idStatut = 4 <;>
    by_cases hp : body.idStatut = lit.idStatut <;>
      simp only [bedStatusTransition, hfind, hactive, createHistory, h3, h4, hp,
        beq_iff_eq, if_true, if_false, Bool.true_eq_false, ite_false, ite_true,
        not_false_eq_true, ne_eq, if_neg, reduceCtorEq] <;>
      exact ⟨_, _, rfl, by simp_all⟩

/-- Claim C1 — counterexample.  The claim states that after every successful
status transition the persisted `ACTIF` flag equals `true` iff the new
`ID_STATUT` is 1 (Free).  The current transition handler never assigns
`ACTIF` (its comment still promises the recompute, but the assignment is
gone), so transitioning the active free bed `MED-01-03` to Occupied leaves
`ACTIF = true` with `ID_STATUT = 2`. -/
theorem c1_counterexample :
    ¬ (∀ (db : DB) (bedId userNom : String) (body : StatusUpdateBody)
        (now : Nat) (db' : DB) (bed : Lit),
        bedStatusTransition db bedId body userNom now = (db', Outcome.ok bed) →
        (bed.actif = true ↔ bed.idStatut = 1)) := by
  intro h
  have hx := h exDbC1 "MED-01-03" "u1" exBodyOccupied 100 exDbAfterOccupied
    exBedAfterOccupied (by decide)
  exact absurd (hx.mp (by decide)) (by decide)

/-- Claim C1 — amended: a successful bed status transition leaves the persisted
`ACTIF` flag exactly as it was (and, because the inactive-bed guard requires
`ACTIF = true` to proceed, it is still `true` afterwards); `ACTIF` is not
recomputed from the target status. -/
theorem c1_transition_leaves_actif_unchanged (db : DB) (bedId userNom : String)
    (body : StatusUpdateBody) (now : Nat) (lit bed : Lit) (db' : DB)
    (hfind : db.lits.find? (fun l => l.idLit == bedId) = some lit)
    (heq : bedStatusTransition db bedId body userNom now = (db', Outcome.ok bed)) :
    bed.actif = lit.actif ∧ bed.actif = true := by
  by_cases ha : lit.actif = true
  · obtain ⟨bed2, db2, heq2, _, hactif, _⟩ :=
      bedStatusTransition_ok_spec db bedId userNom body now lit hfind ha
    rw [heq] at heq2
    obtain ⟨_, hbed⟩ := Prod.ext_iff.mp heq2
    have hb : bed = bed2 := by injection hbed
    subst hb
    exact ⟨hactif, hactif.trans ha⟩
  · have hfalse : lit.actif = false := Bool.eq_false_iff.mpr ha
    simp only [bedStatusTransition, hfind] at heq
    rw [if_pos hfalse] at heq
    exact absurd (congrArg Prod.snd heq) (by simp)

/-- Claim C1 — witness for the amended theorem at the concrete store. -/
theorem c1_transition_leaves_actif_unchanged_witness :
    exBedAfterOccupied.actif = exFreeBed.actif ∧ exBedAfterOccupied.actif = true :=
  c1_transition_leaves_actif_unchanged exDbC1 "MED-01-03" "u1" exBodyOccupied 100
    exFreeBed exBedAfterOccupied exDbAfterOccupied (by decide) (by decide)

/-- Claim C10: a transition request on a bed whose persisted `ACTIF` flag is
`false` is rejected with `Cannot update status of inactive bed` and the
whole store — bed record, history ledger, task collection, id counter — is
returned unchanged; the guard is unconditional in this code path. -/
theorem c10_inactive_bed_gate (db : DB) (bedId userNom : String)
    (body : StatusUpdateBody) (now : Nat) (lit : Lit)
    (hfind : db.lits.find? (fun l => l.idLit == bedId) = some lit)
    (hinactive : lit.actif = false) :
    bedStatusTransition db bedId body userNom now = (db, Outcome.inactiveBed) ∧
    Outcome.errorMessage Outcome.inactiveBed =
      some "Cannot update status of inactive bed" := by
  constructor
  · simp only [bedStatusTransition, hfind]
    rw [if_pos hinactive]
  · rfl

/-- Claim C10 — witness at the concrete store with the inactive bed. -/
theorem c10_inactive_bed_gate_witness :
    bedStatusTransition exDbC10 "CHI-01" exBodyFree "u1" 100 =
      (exDbC10, Outcome.inactiveBed) ∧
    Outcome.errorMessage Outcome.inactiveBed =
      some "Cannot update status of inactive bed" :=
  c10_inactive_bed_gate exDbC10 "CHI-01" "u1" exBodyFree 100 exInactiveBed
    (by decide) (by decide)

/-- Claim C2 — counterexample.  The claim states that every successful
transition first clears all three scheduled-event timestamps, so in
particular a transition to any non-Reserved status leaves `RESERVED_DATE`
null.  The handler only clears `CLEANING_DATE` and `MAINTENANCE_DATE`;
`RESERVED_DATE` is never read or written, so transitioning the bed `SRV-01`
(which carries `RESERVED_DATE = 50`) to Free keeps the stale reservation
timestamp. -/
theorem c2_counterexample :
    ¬ (∀ (db : DB) (bedId userNom : String) (body : StatusUpdateBody)
        (now : Nat) (db' : DB) (bed : Lit),
        bedStatusTransition db bedId body userNom now = (db', Outcome.ok bed) →
        bed.idStatut ≠ 6 → bed.reservedDate = none) := by
  intro h
  have hx := h exDbC2 "SRV-01" "u1" exBodyFree 100 exDbAfterFree exBedAfterFree
    (by decide) (by decide)
  exact absurd hx (by decide)

/-- Claim C2 — amended: a successful transition clears only the cleaning and
maintenance timestamps and sets the one matching the target status from the
request (`CLEANING_DATE` from `CLEANING_TIME` when the target is 3,
`MAINTENANCE_DATE` from `MAINTENANCE_TIME` when it is 4), so at most one of
those two is non-null and it corresponds to the current status; the
reservation timestamp `RESERVED_DATE` is left exactly as it was — it is
neither set by a transition to Reserved nor cleared by any other
transition. -/
theorem c2_scheduled_dates (db : DB) (bedId userNom : String)
    (body : StatusUpdateBody) (now : Nat) (lit bed : Lit) (db' : DB)
    (hfind : db.lits.find? (fun l => l.idLit == bedId) = some lit)
    (heq : bedStatusTransition db bedId body userNom now = (db', Outcome.ok bed)) :
    bed.cleaningDate = (if bed.idStatut = 3 then body.cleaningTime else none) ∧
    bed.maintenanceDate = (if bed.idStatut = 4 then body.maintenanceTime else none) ∧
    bed.reservedDate = lit.reservedDate ∧
    ¬ (bed.cleaningDate ≠ none ∧ bed.maintenanceDate ≠ none) := by
  by_cases ha : lit.actif = true
  · obtain ⟨bed2, db2, heq2, hstatus, _, hreserved, hcleaning, _, hmaintenance, _⟩ :=
      bedStatusTransition_ok_spec db bedId userNom body now lit hfind ha
    rw [heq] at heq2
    obtain ⟨_, hbed⟩ := Prod.ext_iff.mp heq2
    have hb : bed = bed2 := by injection hbed
    subst hb
    rw [hstatus]
    refine ⟨hcleaning, hmaintenance, hreserved, ?_⟩
    rintro ⟨hc, hm⟩
    by_cases h3 : body.idStatut = 3
    · rw [if_neg (by rw [h3]; decide)] at hmaintenance
      exact hm hmaintenance
    · rw [if_neg h3] at hcleaning
      exact hc hcleaning
  · have hfalse : lit.actif = false := Bool.eq_false_iff.mpr ha
    simp only [bedStatusTransition, hfind] at heq
    rw [if_pos hfalse] at heq
    exact absurd (congrArg Prod.snd heq) (by simp)

/-- Claim C2 — witness for the amended theorem at the concrete store. -/
theorem c2_scheduled_dates_witness :
    exBedAfterFree.cleaningDate =
      (if exBedAfterFree.idStatut = 3 then exBodyFree.cleaningTime else none) ∧
    exBedAfterFree.maintenanceDate =
      (if exBedAfterFree.idStatut = 4 then exBodyFree.maintenanceTime else none) ∧
    exBedAfterFree.reservedDate = exReservedBed.reservedDate ∧
    ¬ (exBedAfterFree.cleaningDate ≠ none ∧ exBedAfterFree.maintenanceDate ≠ none) :=
  c2_scheduled_dates exDbC2 "SRV-01" "u1" exBodyFree 100 exReservedBed
    exBedAfterFree exDbAfterFree (by decide) (by decide)

/-- Claim C3: a successful transition whose target status is To-Clean (3) or
Maintenance (4) appends exactly one new task, whose `taskType` matches the
target and which is seeded `isUrgent = false`, `isDone = false`; a successful
transition to any other status leaves the task collection exactly as it was;
and in both cases every task that existed before the transition is still
present, unaltered, afterwards. -/
theorem c3_transition_task_creation (db : DB) (bedId userNom : String)
    (body : StatusUpdateBody) (nextTaskId now : Nat) (db' : DB) (bed : Lit)
    (heq : bedStatusTransitionWithTasks db bedId body userNom nextTaskId now =
      (db', Outcome.ok bed)) :
    (body.idStatut = 3 ∨ body.idStatut = 4 →
      ∃ t, db'.tasks = db.tasks ++ [t] ∧
        t.taskType = body.idStatut ∧ t.isUrgent = false ∧ t.isDone = false) ∧
    (body.idStatut ≠ 3 ∧ body.idStatut ≠ 4 → db'.tasks = db.tasks) ∧
    (∀ t ∈ db.tasks, t ∈ db'.tasks) := by
  have htasks : (bedStatusTransition db bedId body userNom now).1.tasks = db.tasks := by
    cases hf : db.lits.find? (fun l => l.idLit == bedId) with
    | none => simp [bedStatusTransition, hf]
    | some lit =>
      by_cases ha : lit.actif = false
      · simp [bedStatusTransition, hf, ha]
      · simp [bedStatusTransition, hf, ha, createHistory]
  unfold bedStatusTransitionWithTasks at heq
  cases hr : bedStatusTransition db bedId body userNom now with
  | mk dbMid out =>
    rw [hr] at heq htasks
    cases out with
    | notFound => exact absurd (congrArg Prod.snd heq) (by simp)
    | inactiveBed => exact absurd (congrArg Prod.snd heq) (by simp)
    | ok bedMid =>
      obtain ⟨hdb, _⟩ := Prod.ext_iff.mp heq
      simp only at hdb htasks
      subst hdb
      refine ⟨?_, ?_, ?_⟩
      · intro h34
        refine ⟨⟨nextTaskId, bedMid.idLit, bedMid.idService, body.idStatut, now,
          body.subIdStatut, none, none, some bedMid.gender, false, false⟩,
          ?_, rfl, rfl, rfl⟩
        simp only [transitionTaskCreation, htasks]
        rcases h34 with h | h <;> rw [h] <;> rfl
      · intro ⟨h3, h4⟩
        simp only [transitionTaskCreation]
        rw [if_neg (by simp [h3, h4]), htasks]
      · intro t ht
        simp only [transitionTaskCreation]
        split
        · rw [htasks] at *
          exact List.mem_append_left _ ht
        · rw [htasks]; exact ht

/-- Claim C3 — witness: transitioning the free bed to To-Clean with a deep
cleaning sub-status grows the (empty) task collection, i.e. creates a task. -/
theorem c3_transition_task_creation_witness :
    (bedStatusTransitionWithTasks exDbC1 "MED-01-03" exBodyClean "u1" 1 100).1.tasks ≠
      exDbC1.tasks := by
  obtain ⟨t, h1, _, _, _⟩ :=
    (c3_transition_task_creation exDbC1 "MED-01-03" "u1" exBodyClean 1 100
      (bedStatusTransitionWithTasks exDbC1 "MED-01-03" exBodyClean "u1" 1 100).1
      exBedAfterClean (by decide)).1 (Or.inl rfl)
  rw [h1]
  simp [exDbC1]

/-- Claim C9: updating a task through `PATCH /tasks/:id` touches only the
`tasks` collection — the bed store, the history ledger and the history id
counter are returned unchanged — and a bed status transition never alters
any existing task: the handler in `src/` leaves the `tasks` collection
untouched, and even with the spec's task-creation step every task that
existed before the transition is still present, unaltered, afterwards. -/
theorem c9_task_bed_decoupling (db : DB) (taskId : Nat) (p : TaskPatchBody)
    (bedId userNom : String) (body : StatusUpdateBody) (nextTaskId now : Nat) :
    (patchTask db taskId p).1.lits = db.lits ∧
    (patchTask db taskId p).1.historique = db.historique ∧
    (patchTask db taskId p).1.histCounter = db.histCounter ∧
    (bedStatusTransition db bedId body userNom now).1.tasks = db.tasks ∧
    (∀ t ∈ db.tasks,
      t ∈ (bedStatusTransitionWithTasks db bedId body userNom nextTaskId now).1.tasks) := by
  have htasks : (bedStatusTransition db bedId body userNom now).1.tasks = db.tasks := by
    cases hf : db.lits.find? (fun l => l.idLit == bedId) with
    | none => simp [bedStatusTransition, hf]
    | some lit =>
      by_cases ha : lit.actif = false
      · simp [bedStatusTransition, hf, ha]
      · simp [bedStatusTransition, hf, ha, createHistory]
  refine ⟨?_, ?_, ?_, htasks, ?_⟩
  · cases hf : db.tasks.find? (fun t => t.taskId == taskId) <;> simp [patchTask, hf]
  · cases hf : db.tasks.find? (fun t => t.taskId == taskId) <;> simp [patchTask, hf]
  · cases hf : db.tasks.find? (fun t => t.taskId == taskId) <;> simp [patchTask, hf]
  · intro t ht
    unfold bedStatusTransitionWithTasks
    cases hr : bedStatusTransition db bedId body userNom now with
    | mk dbMid out =>
      rw [hr] at htasks
      simp only at htasks
      cases out with
      | notFound => simpa [htasks] using ht
      | inactiveBed => simpa [htasks] using ht
      | ok bedMid =>
        simp only [transitionTaskCreation]
        split
        · rw [htasks]
          exact List.mem_append_left _ ht
        · rw [htasks]
          exact ht

/-- One `createHistory` step: the fresh record's id is strictly greater than
every id already in the ledger, and the invariant is preserved. -/
theorem createHistory_step (db : DB) (data : HistCreateData) (now : Nat)
    (hinv : histIdInv db) :
    (∀ h ∈ db.historique, h.idHist < (createHistory db data now).2.idHist) ∧
    histIdInv (createHistory db data now).1 := by
  obtain ⟨hle, hpw⟩ := hinv
  have hfresh : ∀ h ∈ db.historique, h.idHist < db.histCounter + 1 :=
    fun h hm => Nat.lt_succ_of_le (hle h hm)
  refine ⟨hfresh, ?_, ?_⟩
  · intro h hm
    simp only [createHistory] at hm ⊢
    rcases List.mem_append.mp hm with hm | hm
    · exact Nat.le_succ_of_le (hle h hm)
    · simp only [List.mem_singleton] at hm
      subst hm
      exact Nat.le_refl _
  · simp only [createHistory]
    rw [List.pairwise_append]
    refine ⟨hpw, List.pairwise_singleton _ _, ?_⟩
    intro a ha b hb
    simp only [List.mem_singleton] at hb
    subst hb
    exact hfresh a ha

/-- Claim C5: starting from any store satisfying the ledger/counter invariant
(e.g. the empty store), any sequence of history appends preserves it; in
particular the ids along the ledger remain strictly increasing in append
order, so every appended entry gets an id strictly greater than all earlier
ones and no two entries ever share an id. -/
theorem c5_history_ids_strictly_increasing (db : DB)
    (reqs : List (HistCreateData × Nat)) (hinv : histIdInv db) :
    histIdInv (appendHistories db reqs) ∧
    (appendHistories db reqs).historique.Pairwise
      (fun a b => a.idHist < b.idHist ∧ a.idHist ≠ b.idHist) := by
  have hmain : histIdInv (appendHistories db reqs) := by
    induction reqs generalizing db with
    | nil => exact hinv
    | cons r rs ih =>
      exact ih _ (createHistory_step db r.1 r.2 hinv).2
  refine ⟨hmain, ?_⟩
  exact hmain.2.imp (fun hab => ⟨hab, Nat.ne_of_lt hab⟩)

/-- Claim C5 — witness: three appends onto the empty store keep the invariant
and produce pairwise distinct, strictly increasing ids. -/
theorem c5_history_ids_strictly_increasing_witness :
    histIdInv (appendHistories ⟨[], [], [], 0⟩
      [(exHistData, 10), (exHistData, 20), (exHistData, 15)]) ∧
    (appendHistories ⟨[], [], [], 0⟩
      [(exHistData, 10), (exHistData, 20), (exHistData, 15)]).historique.Pairwise
      (fun a b => a.idHist < b.idHist ∧ a.idHist ≠ b.idHist) :=
  c5_history_ids_strictly_increasing ⟨[], [], [], 0⟩
    [(exHistData, 10), (exHistData, 20), (exHistData, 15)] (by decide)

/-- Claim C4 — counterexample.  The claim states the capacity aggregation
returns `CAPA_ARCHI` = count of all beds of the service and `CAPA_REELLE` =
count of its beds with status Free.  The services listing routes instead
count only beds with `ACTIF === true`: for a service whose one bed is Free
but inactive, the routes return `(0, 0)` while the claimed counts (which the
unused `Service` model virtuals do compute) are `(1, 1)`. -/
theorem c4_counterexample :
    ¬ (∀ (db : DB) (serviceId : String),
        capaArchi db serviceId = virtualCapaArchi db serviceId ∧
        capaReelle db serviceId = virtualCapaReelle db serviceId) := by
  intro h
  exact absurd (h exDbC4 "S") (by decide)

/-- Claim C4 — amended: on every read the services listing routes compute,
fresh from the bed store, `CAPA_ARCHI` = count of the service's beds with
`ACTIF = true` and `CAPA_REELLE` = count of those with `ID_STATUT = 1` as
well, so `CAPA_REELLE ≤ CAPA_ARCHI` always; and whenever every bed of the
service is active the two counts agree with the claimed ones (all beds /
all Free beds, as the `Service` model virtuals compute them). -/
theorem c4_route_capacities (db : DB) (serviceId : String) :
    capaReelle db serviceId ≤ capaArchi db serviceId ∧
    ((∀ b ∈ serviceBeds db serviceId, b.actif = true) →
      capaArchi db serviceId = virtualCapaArchi db serviceId ∧
      capaReelle db serviceId = virtualCapaReelle db serviceId) := by
  constructor
  · unfold capaReelle capaArchi
    exact (List.monotone_filter_right _
      (fun b hb => by simp only [Bool.and_eq_true] at hb; exact hb.2)).length_le
  · intro hall
    unfold capaArchi capaReelle virtualCapaArchi virtualCapaReelle
    constructor
    · exact congrArg List.length (List.filter_eq_self.mpr (fun b hb => by simp [hall b hb]))
    · exact congrArg List.length (List.filter_congr (fun b hb => by simp [hall b hb]))

/-- Claim C4 — witness for the amended theorem: on a store whose only bed is
active and Free, the route counts agree with the model virtuals. -/
theorem c4_route_capacities_witness :
    capaReelle exDbC1 "MED-01" ≤ capaArchi exDbC1 "MED-01" ∧
    capaArchi exDbC1 "MED-01" = virtualCapaArchi exDbC1 "MED-01" ∧
    capaReelle exDbC1 "MED-01" = virtualCapaReelle exDbC1 "MED-01" := by
  obtain ⟨hle, himp⟩ := c4_route_capacities exDbC1 "MED-01"
  exact ⟨hle, himp (by decide)⟩

/-! ## Visibility of history and beds -/

theorem matchesHistQuery_service {q : HistQuery} {h : HistoriqueStatut}
    (hm : matchesHistQuery q h = true) :
    q.idService.matches h.idService = true := by
  simp only [matchesHistQuery, Bool.and_eq_true] at hm
  tauto

theorem matchesHistQuery_or {q : HistQuery} {h : HistoriqueStatut}
    (hm : matchesHistQuery q h = true) :
    (match q.orStatusOrPrev with
      | none => true
      | some k => h.idStatut == k || h.statutPrecedent == k) = true := by
  simp only [matchesHistQuery, Bool.and_eq_true] at hm
  tauto

/-- Matching the role-extended query implies matching the caller's explicit
filters: the `$or` the role filters add occupies a key the explicit filters
never use, so it is conjoined with them, not substituted for them. -/
theorem matchesHistQuery_orOverride {req : HistoryQueryReq} {k : Int}
    {h : HistoriqueStatut}
    (hm : matchesHistQuery { baseHistQuery req with orStatusOrPrev := some k } h = true) :
    matchesHistQuery (baseHistQuery req) h = true := by
  simp only [matchesHistQuery, baseHistQuery, Bool.and_eq_true] at hm ⊢
  tauto

/-- Claim C6 — amended: for a `User`/`Viewer` caller the filtered history query
only returns entries whose service is in the caller's authorized set, and an
empty authorized set short-circuits to the empty result; the bed list
endpoint, by contrast, applies no service-based restriction at all (see the
counterexample). -/
theorem c6_history_service_scoping (db : DB) (user : Utilisateur)
    (req : HistoryQueryReq)
    (hrole : user.role = "User" ∨ user.role = "Viewer") :
    (∀ e ∈ historyRoute db user req, e.idService ∈ user.servicesAutorises) ∧
    (user.servicesAutorises = [] → historyRoute db user req = []) := by
  have hq : buildHistQuery req user =
      (if user.servicesAutorises.length > 0 then
        some { baseHistQuery req with idService := .inServices user.servicesAutorises }
      else none) := by
    unfold buildHistQuery
    rcases hrole with h | h <;> rw [h] <;> rfl
  constructor
  · intro e he
    unfold historyRoute at he
    rw [hq] at he
    by_cases hlen : user.servicesAutorises.length > 0
    · rw [if_pos hlen] at he
      have he2 := List.mem_filter.mp (mem_sortStable.mp
        (List.drop_subset _ _ (List.take_subset _ _ he)))
      have hsvc := matchesHistQuery_service he2.2
      simpa [ServiceCond.matches] using hsvc
    · rw [if_neg hlen] at he
      simp at he
  · intro hempty
    unfold historyRoute
    rw [hq, hempty]
    rfl

/-- Claim C6 — witness for the amended theorem: the scoped caller on the
two-service history store does receive the service-A entry, and its service
is in the caller's authorized set. -/
theorem c6_history_service_scoping_witness :
    exHistClean.idService ∈ exUserA.servicesAutorises :=
  (c6_history_service_scoping exDbHist exUserA exReqAll (Or.inl rfl)).1
    exHistClean (by decide)

/-- Claim C6 — counterexample.  The claim states that every bed or history
query made by a service-scoped caller returns only records of authorized
services, the empty set yielding the empty list.  The current `GET /lits`
handler queries with `query = {}` and no role check, so a `Viewer` with no
authorized services still receives every bed. -/
theorem c6_counterexample :
    ¬ (∀ (db : DB) (user : Utilisateur),
        user.servicesAutorises = [] → listAllBeds db user = []) := by
  intro h
  exact absurd (h exDbBeds exUserNone rfl) (by decide)

/-- Claim C7: under a cleaning-staff role (`Agent d'entretien` or
`Responsabled'entretien`) every entry the filtered history query returns has
current status 3 (To-Clean) or previous status 3, and it also satisfies every
explicit filter the caller supplied — the role predicate is conjoined with
the caller's filters, not substituted for them. -/
theorem c7_cleaning_role_history (db : DB) (user : Utilisateur)
    (req : HistoryQueryReq)
    (hrole : user.role = "Agent d\x27entretien" ∨
      user.role = "Responsabled\x27entretien") :
    ∀ e ∈ historyRoute db user req,
      (e.idStatut = 3 ∨ e.statutPrecedent = 3) ∧
      matchesHistQuery (baseHistQuery req) e = true := by
  have hq : buildHistQuery req user =
      some { baseHistQuery req with orStatusOrPrev := some 3 } := by
    unfold buildHistQuery
    rcases hrole with h | h <;> rw [h] <;> rfl
  intro e he
  unfold historyRoute at he
  rw [hq] at he
  have he2 := List.mem_filter.mp (mem_sortStable.mp
    (List.drop_subset _ _ (List.take_subset _ _ he)))
  refine ⟨?_, matchesHistQuery_orOverride he2.2⟩
  have hor := matchesHistQuery_or he2.2
  simpa using hor

/-- Claim C7 — witness: the cleaning-staff caller on the two-entry history
store receives the To-Clean entry, which has status 3 and matches the
(empty) explicit filters. -/
theorem c7_cleaning_role_history_witness :
    (exHistClean.idStatut = 3 ∨ exHistClean.statutPrecedent = 3) ∧
    matchesHistQuery (baseHistQuery exReqAll) exHistClean = true :=
  c7_cleaning_role_history exDbHist exUserCleaning exReqAll (Or.inl rfl)
    exHistClean (by decide)

/-- Claim C8 — counterexample.  The claim states every history listing is
sorted newest-first by timestamp with ties ordered by `ID_HIST` descending.
Both listings sort with `{ DATE_HEURE: -1 }` only — no secondary key — so
two entries sharing a timestamp come back in store order (ascending ids
here), not by id descending. -/
theorem c8_counterexample :
    ¬ (∀ (db : DB) (bedId : String),
        (getBedHistory db bedId 50).Pairwise
          (fun a b => b.dateHeure < a.dateHeure ∨
            (b.dateHeure = a.dateHeure ∧ b.idHist < a.idHist))) := by
  intro h
  exact absurd (h exDbTie "B-01") (by decide)

/-- Claim C8 — amended: every history listing (`getBedHistory` and the filtered
history query) is sorted newest-first by the entry timestamp; entries with
equal timestamps carry no further ordering guarantee (no `ID_HIST`
tie-break exists in either sort stage). -/
theorem c8_history_sorted_by_date (db : DB) (bedId : String) (limit : Nat)
    (user : Utilisateur) (req : HistoryQueryReq) :
    (getBedHistory db bedId limit).Pairwise
      (fun a b => b.dateHeure ≤ a.dateHeure) ∧
    (historyRoute db user req).Pairwise
      (fun a b => b.dateHeure ≤ a.dateHeure) := by
  have hsorted : ∀ l : List HistoriqueStatut,
      (sortStable dateHeureDesc l).Pairwise
        (fun a b => b.dateHeure ≤ a.dateHeure) := by
    intro l
    have hp := @pairwise_sortStable HistoriqueStatut dateHeureDesc
      (fun a b => by
        unfold dateHeureDesc
        rcases Nat.le_total b.dateHeure a.dateHeure with h | h
        · exact Or.inl (by simpa using h)
        · exact Or.inr (by simpa using h))
      (fun a b c hab hbc => by
        unfold dateHeureDesc at *
        simp only [decide_eq_true_eq] at hab hbc ⊢
        exact Nat.le_trans hbc hab) l
    exact hp.imp (fun hab => by simpa [dateHeureDesc] using hab)
  constructor
  · exact ((hsorted _).sublist (List.take_sublist _ _))
  · unfold historyRoute
    cases buildHistQuery req user with
    | none => simp
    | some q =>
      exact ((hsorted _).sublist
        ((List.take_sublist _ _).trans (List.drop_sublist _ _)))
